import Mathlib

/-!
# Verification of the codis proxy core

Shallow embedding of the codis proxy core (RESP codec, command classifier,
backend connection and router) and proofs about it.  Bytes are modelled as
`Nat` (Go `byte` values), byte strings as `List Nat`, Go `int64` as `Int`
with explicit wrap-around where overflow matters, and fallible operations
return `Except`.
-/

set_option maxRecDepth 100000
set_option linter.unnecessarySimpa false

/-! ## CRC32 (IEEE) — Go `hash/crc32.ChecksumIEEE`

Go's implementation is table-driven; the table memoizes the bitwise
definition below (reflected polynomial `0xEDB88320`, initial value and
final xor `0xFFFFFFFF`), which we embed directly. -/

/-- One bit step of the reflected CRC32 update: shift right, conditionally
xoring in the reversed IEEE polynomial `0xEDB88320 = 3988292384`. -/
def crc32Bit (c : Nat) : Nat :=
  if c % 2 = 1 then (c / 2) ^^^ 3988292384 else c / 2

/-- Absorb one byte into the CRC32 state (xor then eight bit steps). -/
def crc32Update (c : Nat) (b : Nat) : Nat :=
  crc32Bit^[8] (c ^^^ b)

/-- `crc32.ChecksumIEEE`: fold all bytes starting from `0xFFFFFFFF`,
complementing the result. -/
def crc32 (data : List Nat) : Nat :=
  (data.foldl crc32Update 4294967295) ^^^ 4294967295

/-! ## Hash-tag extraction and `hashSlot` (src/unnamed/part_008) -/

/-- `bytes.IndexByte`: index of the first occurrence of `c`, `none` for Go's
`-1`. -/
def goIndexByte (b : List Nat) (c : Nat) : Option Nat :=
  match b with
  | [] => none
  | x :: t => if x = c then some 0 else (goIndexByte t c).map (· + 1)

/-- The bytes actually hashed by `hashSlot` (src/unnamed/part_008, lines
100-111): if `{` occurs and some `}` occurs after it, the bytes strictly
between the first `{` and the first following `}` (possibly empty),
otherwise the whole key. -/
def hashTagBytes (key : List Nat) : List Nat :=
  match goIndexByte key 123 with
  | some beg =>
    match goIndexByte (key.drop (beg + 1)) 125 with
    | some e => (key.drop (beg + 1)).take e
    | none => key
  | none => key

/-- `hashSlot` (src/unnamed/part_008): CRC32-IEEE of the hash-tag bytes
modulo `models.MaxSlotNum`.  `MaxSlotNum` is declared in `pkg/models`
outside the provided sources; the spec fixes it at 1024. -/
def hashSlot (key : List Nat) : Nat :=
  crc32 (hashTagBytes key) % 1024

/-- The hashed-bytes selection as the claim C4 words it: the tag is used
only when the closing `}` sits at position strictly greater than 1 after
the `{` (i.e. the tag is non-empty); otherwise the whole key is hashed. -/
def claimHashedBytes (key : List Nat) : List Nat :=
  match goIndexByte key 123 with
  | some beg =>
    match goIndexByte (key.drop (beg + 1)) 125 with
    | some e => if 1 ≤ e then (key.drop (beg + 1)).take e else key
    | none => key
  | none => key

/-- The hashed-bytes selection with the amendment: any following `}`
selects the tag, including the empty tag `{}`. -/
def amendedHashedBytes (key : List Nat) : List Nat :=
  match goIndexByte key 123 with
  | some beg =>
    match goIndexByte (key.drop (beg + 1)) 125 with
    | some e => (key.drop (beg + 1)).take e
    | none => key
  | none => key

/-! ## Decimal formatting — Go `strconv.FormatInt(i, 10)` / `strconv.Itoa`

The Go standard library formats integers in base 10; we embed the canonical
decimal representation (most significant digit first, ASCII digits, with a
leading `-` for negatives), using explicit fuel so that the definition is
structurally recursive and evaluable. -/

/-- Digits of `n` in base 10 as ASCII bytes, most significant first.  The
fuel argument exceeds the digit count whenever `n < fuel`. -/
def natDigitsAux : Nat → Nat → List Nat
  | 0, _ => []
  | f + 1, n => if n < 10 then [n + 48] else natDigitsAux f (n / 10) ++ [n % 10 + 48]

/-- ASCII decimal digits of a natural number, most significant first. -/
def natDigits (n : Nat) : List Nat :=
  natDigitsAux (n + 1) n

/-- `strconv.FormatInt(i, 10)` / `strconv.Itoa`: canonical decimal bytes of
an integer. -/
def formatInt (i : Int) : List Nat :=
  if i < 0 then 45 :: natDigits i.natAbs else natDigits i.natAbs

/-! ## `btoi` (src/pkg/proxy/redis/decoder.go, lines 27-56) -/

/-- Is `c` an ASCII decimal digit? -/
def isDigitByte (c : Nat) : Bool :=
  48 ≤ c && c ≤ 57

/-- The accumulation `n = int64(b[i]-'0') + n*10` performed by `btoi`'s
fast loop over digit bytes. -/
def digitsVal (l : List Nat) : Nat :=
  l.foldl (fun n d => (d - 48) + n * 10) 0

/-- The sign handling shared by `btoi`'s fast path and `strconv.ParseInt`:
a leading `-` negates and is skipped, a leading `+` is skipped. -/
def signSplit (b : List Nat) : Bool × List Nat :=
  match b with
  | c :: t => if c = 45 then (true, t) else if c = 43 then (false, t) else (false, b)
  | [] => (false, [])

/-- Go `strconv.ParseInt(string(b), 10, 64)`: optional sign, then a
non-empty run of decimal digits, with the value required to fit in
`int64`; anything else is an error. -/
def goParseInt (b : List Nat) : Except Unit Int :=
  let p := signSplit b
  if p.2.isEmpty then .error ()
  else if p.2.all isDigitByte then
    let v : Int := (digitsVal p.2 : Nat)
    let v := if p.1 then -v else v
    if -9223372036854775808 ≤ v ∧ v < 9223372036854775808 then .ok v else .error ()
  else .error ()

/-- `btoi` (decoder.go): for inputs of 1 to 9 bytes an allocation-free
fast path (optional sign then digits); everything else falls through to
`strconv.ParseInt`. -/
def btoi (b : List Nat) : Except Unit Int :=
  if b.length ≠ 0 ∧ b.length < 10 then
    let p := signSplit b
    if p.2.isEmpty = false ∧ p.2.all isDigitByte then
      let n : Int := (digitsVal p.2 : Nat)
      .ok (if p.1 then -n else n)
    else goParseInt b
  else goParseInt b

/-! ## `itoa` / `itob` (src/pkg/proxy/redis/encoder.go, lines 15-51) -/

/-- Entry `n` of the precomputed table: the `init` loop stores
`strconv.Itoa(i - 1024)` at index `i` for `i < 1024*128+1024`. -/
def itoamapEntry (n : Nat) : List Nat :=
  formatInt ((n : Int) - 1024)

/-- Entry `n` of `itobmap`: the `init` loop stores `[]byte(itoamap[i])`. -/
def itobmapEntry (n : Nat) : List Nat :=
  itoamapEntry n

/-- Wrap-around of Go `int64` addition results. -/
def i64wrap (x : Int) : Int :=
  (x + 9223372036854775808) % 18446744073709551616 - 9223372036854775808

/-- `itoxIndex` (encoder.go): table index for `i`, or `-1`.  The guard
`i < n` fails when the `int64` addition `i + 1024` overflows. -/
def itoxIndex (i : Int) : Int :=
  let n := i64wrap (i + 1024)
  if i < n then (if 0 ≤ n ∧ n < 132096 then n else -1) else -1

/-- `itoa` (encoder.go): table lookup when the index is non-negative,
otherwise `strconv.FormatInt(i, 10)`. -/
def itoa (i : Int) : List Nat :=
  if 0 ≤ itoxIndex i then itoamapEntry (itoxIndex i).toNat else formatInt i

/-- `itob` (encoder.go): same dispatch as `itoa`, reading `itobmap`. -/
def itob (i : Int) : List Nat :=
  if 0 ≤ itoxIndex i then itobmapEntry (itoxIndex i).toNat else formatInt i

/-! ## The RESP value type (src/pkg/proxy/redis)

Go's `Resp` is a struct of a type tag, a `Value []byte` and an
`Array []*Resp`; a `nil` slice in the bulk-bytes or array position encodes
the RESP null value.  We split the tag/nil combinations into constructors;
`bulkNull` and `arrNull` are the two null values. -/

inductive Resp where
  | str (v : List Nat)
  | err (v : List Nat)
  | int (v : List Nat)
  | bulkNull
  | bulk (v : List Nat)
  | arrNull
  | arr (a : List Resp)
deriving Repr

/-- `Resp.Value`: the `Value` field of the Go struct (`nil`, of length 0,
for the null bulk and for arrays). -/
def respValue : Resp → List Nat
  | .str v => v
  | .err v => v
  | .int v => v
  | .bulk v => v
  | .bulkNull => []
  | .arrNull => []
  | .arr _ => []

/-- `Type == TypeBulkBytes` (null bulk included). -/
def isBulkType : Resp → Bool
  | .bulk _ => true
  | .bulkNull => true
  | _ => false

/-! ## Encoder (src/pkg/proxy/redis/encoder.go) -/

/-- `encodeTextBytes`: payload followed by CRLF. -/
def encodeTextBytes (v : List Nat) : List Nat :=
  v ++ [13, 10]

/-- `encodeInt`: `itoa` of the value followed by CRLF. -/
def encodeIntBytes (v : Int) : List Nat :=
  itoa v ++ [13, 10]

mutual

/-- `Encoder.encodeResp`: one type byte (`+ - : $ *` = 43 45 58 36 42),
then the variant payload. -/
def encodeResp : Resp → List Nat
  | .str v => 43 :: encodeTextBytes v
  | .err v => 45 :: encodeTextBytes v
  | .int v => 58 :: encodeTextBytes v
  | .bulkNull => 36 :: encodeIntBytes (-1)
  | .bulk v => 36 :: (encodeIntBytes (v.length : Int) ++ encodeTextBytes v)
  | .arrNull => 42 :: encodeIntBytes (-1)
  | .arr l => 42 :: (encodeIntBytes (l.length : Int) ++ encodeRespList l)

/-- The element loop of `encodeArray`. -/
def encodeRespList : List Resp → List Nat
  | [] => []
  | r :: t => encodeResp r ++ encodeRespList t

end

/-! ## Decoder (src/pkg/proxy/redis/decoder.go)

The buffered `Reader` is modelled as the remaining byte list; all reader
operations used by the decoder reduce to splitting that list.
`decodeTextBytesUnsafe` differs from `decodeTextBytes` only in buffer
management, which is below this abstraction, so both are the same
function here. -/

inductive RErr where
  | badCRLFEnd
  | badBytesLen
  | badBytesLenTooLong
  | badArrayLen
  | badArrayLenTooLong
  | badMultiBulkLen
  | badMultiBulkContent
  | badTypeByte (b : Nat)
  | eofErr
  | parseFail
  | outOfFuel
deriving DecidableEq, Repr

/-- `Reader.ReadBytes('\n')`: the prefix up to and including the first LF,
and the rest; `none` when no LF remains (Go reports `io.EOF`). -/
def readLine : List Nat → Option (List Nat × List Nat)
  | [] => none
  | b :: rest =>
    if b = 10 then some ([10], rest)
    else
      match readLine rest with
      | none => none
      | some (l, r) => some (b :: l, r)

/-- `decodeTextBytes`: read to LF, require the byte before the LF to be CR,
return the line without its CRLF. -/
def decodeTextBytes (s : List Nat) : Except RErr (List Nat × List Nat) :=
  match readLine s with
  | none => .error .eofErr
  | some (b, rest) =>
    if b.length < 2 then .error .badCRLFEnd
    else if b.getD (b.length - 2) 0 ≠ 13 then .error .badCRLFEnd
    else .ok (b.take (b.length - 2), rest)

/-- `decodeInt`: a text line fed to `btoi`. -/
def decodeInt (s : List Nat) : Except RErr (Int × List Nat) :=
  match decodeTextBytes s with
  | .error e => .error e
  | .ok (b, rest) =>
    match btoi b with
    | .error _ => .error .parseFail
    | .ok n => .ok (n, rest)

/-- `decodeBulkBytes` (decoder.go, lines 171-192): decode a length `n`,
reject `n < -1` and `n > 512 MiB`, treat `n = -1` as null, otherwise read
exactly `n+2` bytes and require the final CRLF. -/
def decodeBulkBytes (s : List Nat) : Except RErr (Option (List Nat) × List Nat) :=
  match decodeInt s with
  | .error e => .error e
  | .ok (n, rest) =>
    if n < -1 then .error .badBytesLen
    else if 536870912 < n then .error .badBytesLenTooLong
    else if n = -1 then .ok (none, rest)
    else
      let m := n.toNat + 2
      if rest.length < m then .error .eofErr
      else
        let b := rest.take m
        if b.getD n.toNat 0 ≠ 13 ∨ b.getD (n.toNat + 1) 0 ≠ 10 then .error .badCRLFEnd
        else .ok (some (b.take n.toNat), rest.drop m)

/-- The element loop of `decodeArray`, with the element decoder passed in
(`decodeResp` at one smaller fuel). -/
def decodeElemsAux (dec : List Nat → Except RErr (Resp × List Nat)) :
    Nat → List Nat → Except RErr (List Resp × List Nat)
  | 0, s => .ok ([], s)
  | k + 1, s =>
    match dec s with
    | .error e => .error e
    | .ok (r, s1) =>
      match decodeElemsAux dec k s1 with
      | .error e => .error e
      | .ok (l, s2) => .ok (r :: l, s2)

/-- `decodeResp` with `decodeArray` inlined (decoder.go, lines 108-129 and
194-214): dispatch on the type byte; arrays decode a length with the
`n < -1` / `n > 1 Mi` / null rules, then that many nested values.  The Go
recursion is bounded by the input; the embedding makes the bound an
explicit fuel (one unit per nesting level, never exhausted when the fuel
exceeds the encoding length). -/
def decodeResp : Nat → List Nat → Except RErr (Resp × List Nat)
  | 0, _ => .error .outOfFuel
  | fuel + 1, s =>
    match s with
    | [] => .error .eofErr
    | t :: rest =>
      if t = 43 then
        match decodeTextBytes rest with
        | .error e => .error e
        | .ok (v, r) => .ok (.str v, r)
      else if t = 45 then
        match decodeTextBytes rest with
        | .error e => .error e
        | .ok (v, r) => .ok (.err v, r)
      else if t = 58 then
        match decodeTextBytes rest with
        | .error e => .error e
        | .ok (v, r) => .ok (.int v, r)
      else if t = 36 then
        match decodeBulkBytes rest with
        | .error e => .error e
        | .ok (none, r) => .ok (.bulkNull, r)
        | .ok (some v, r) => .ok (.bulk v, r)
      else if t = 42 then
        match decodeInt rest with
        | .error e => .error e
        | .ok (n, r1) =>
          if n < -1 then .error .badArrayLen
          else if 1048576 < n then .error .badArrayLenTooLong
          else if n = -1 then .ok (.arrNull, r1)
          else
            match decodeElemsAux (decodeResp fuel) n.toNat r1 with
            | .error e => .error e
            | .ok (l, r2) => .ok (.arr l, r2)
      else .error (.badTypeByte t)

/-- The token split of `decodeSingleLineMultiBulk`: split on ASCII space,
dropping empty tokens. -/
def splitSpaceTokensAux : List Nat → List Nat → List (List Nat)
  | [], cur => if cur.isEmpty then [] else [cur.reverse]
  | c :: t, cur =>
    if c = 32 then
      (if cur.isEmpty then splitSpaceTokensAux t [] else cur.reverse :: splitSpaceTokensAux t [])
    else splitSpaceTokensAux t (c :: cur)

/-- `decodeSingleLineMultiBulk` (decoder.go, lines 216-234): an inline
command line split into bulk-bytes tokens; empty token lists are
rejected. -/
def decodeSingleLineMultiBulk (s : List Nat) : Except RErr (List Resp × List Nat) :=
  match decodeTextBytes s with
  | .error e => .error e
  | .ok (b, rest) =>
    let multi := (splitSpaceTokensAux b []).map Resp.bulk
    if multi.isEmpty then .error .badMultiBulkLen
    else .ok (multi, rest)

/-- The element loop of `decodeMultiBulk`: each decoded element must be of
bulk-bytes type. -/
def decodeMBElemsAux (dec : List Nat → Except RErr (Resp × List Nat)) :
    Nat → List Nat → Except RErr (List Resp × List Nat)
  | 0, s => .ok ([], s)
  | k + 1, s =>
    match dec s with
    | .error e => .error e
    | .ok (r, s1) =>
      if isBulkType r = false then .error .badMultiBulkContent
      else
        match decodeMBElemsAux dec k s1 with
        | .error e => .error e
        | .ok (l, s2) => .ok (r :: l, s2)

/-- `decodeMultiBulk` (decoder.go, lines 236-267): if the first byte is not
`*`, unread it and parse an inline command; otherwise decode a length `n`,
rejecting `n <= 0` (`ErrBadRespArrayLen`) and `n > 1 Mi`, then decode `n`
bulk-bytes elements. -/
def decodeMultiBulk (fuel : Nat) (s : List Nat) : Except RErr (List Resp × List Nat) :=
  match s with
  | [] => .error .eofErr
  | b :: rest =>
    if b ≠ 42 then decodeSingleLineMultiBulk s
    else
      match decodeInt rest with
      | .error e => .error e
      | .ok (n, r1) =>
        if n ≤ 0 then .error .badArrayLen
        else if 1048576 < n then .error .badArrayLenTooLong
        else decodeMBElemsAux (decodeResp fuel) n.toNat r1

mutual

/-- Well-formedness of a `Resp` under which the round-trip law holds:
simple-string, error and integer payloads contain no LF byte, bulk
payloads respect `MaxBulkBytesLen`, arrays respect `MaxArrayLen`, nested
elements well-formed. -/
def wfResp : Resp → Bool
  | .str v => v.all (· ≠ 10)
  | .err v => v.all (· ≠ 10)
  | .int v => v.all (· ≠ 10)
  | .bulkNull => true
  | .bulk v => v.length ≤ 536870912
  | .arrNull => true
  | .arr l => (l.length ≤ 1048576) && wfRespList l

def wfRespList : List Resp → Bool
  | [] => true
  | r :: t => wfResp r && wfRespList t

end

mutual

/-- Well-formedness exactly as claim C2 words it: the type is one of the
five RESP types (all constructors), payloads within the size limits and
nested elements well-formed — with no condition on the bytes of
simple-string/error/integer payloads. -/
def claimWFResp : Resp → Bool
  | .str _ => true
  | .err _ => true
  | .int _ => true
  | .bulkNull => true
  | .bulk v => v.length ≤ 536870912
  | .arrNull => true
  | .arr l => (l.length ≤ 1048576) && claimWFRespList l

def claimWFRespList : List Resp → Bool
  | [] => true
  | r :: t => claimWFResp r && claimWFRespList t

end

/-! ## Command classifier (src/unnamed/part_008) -/

/-- The 128-entry `charmap` seeded by `init`: ASCII lower-case letters map
to upper case, everything else below 128 to itself. -/
def charmapByte (c : Nat) : Nat :=
  if 97 ≤ c ∧ c ≤ 122 then c - 32 else c

/-- The opcode blacklist seeded by `init` (src/unnamed/part_008, lines
33-43). -/
def blacklistOps : List String :=
  ["KEYS", "MOVE", "OBJECT", "RENAME", "RENAMENX", "SCAN", "BITOP", "MSETNX", "MIGRATE", "RESTORE",
   "BLPOP", "BRPOP", "BRPOPLPUSH", "PSUBSCRIBE", "PUBLISH", "PUNSUBSCRIBE", "SUBSCRIBE", "RANDOMKEY",
   "UNSUBSCRIBE", "DISCARD", "EXEC", "MULTI", "UNWATCH", "WATCH", "SCRIPT",
   "BGREWRITEAOF", "BGSAVE", "CLIENT", "CONFIG", "DBSIZE", "DEBUG", "FLUSHALL", "FLUSHDB",
   "LASTSAVE", "MONITOR", "SAVE", "SHUTDOWN", "SLAVEOF", "SLOWLOG", "SYNC", "TIME",
   "SLOTSINFO", "SLOTSDEL", "SLOTSMGRTSLOT", "SLOTSMGRTONE", "SLOTSMGRTTAGSLOT", "SLOTSMGRTTAGONE", "SLOTSCHECK"]

/-- The interned-opcode table `redisfast` seeded by `init` (src/unnamed/
part_008, lines 44-63); the map stores each opcode as its own value. -/
def redisfastOps : List String :=
  ["GET", "SET", "SETNX", "SETEX", "PSETEX", "APPEND", "STRLEN", "DEL", "EXISTS", "SETBIT", "GETBIT", "SETRANGE",
   "GETRANGE", "SUBSTR", "INCR", "DECR", "MGET", "RPUSH", "LPUSH", "RPUSHX", "LPUSHX", "LINSERT", "RPOP", "LPOP",
   "BRPOP", "BRPOPLPUSH", "BLPOP", "LLEN", "LINDEX", "LSET", "LRANGE", "LTRIM", "LREM", "RPOPLPUSH", "SADD", "SREM", "SMOVE",
   "SISMEMBER", "SCARD", "SPOP", "SRANDMEMBER", "SINTER", "SINTERSTORE", "SUNION", "SUNIONSTORE", "SDIFF", "SDIFFSTORE", "SMEMBERS",
   "SSCAN", "ZADD", "ZINCRBY", "ZREM", "ZREMRANGEBYSCORE", "ZREMRANGEBYRANK", "ZREMRANGEBYLEX", "ZUNIONSTORE", "ZINTERSTORE", "ZRANGE",
   "ZRANGEBYSCORE", "ZREVRANGEBYSCORE", "ZRANGEBYLEX", "ZREVRANGEBYLEX", "ZCOUNT", "ZLEXCOUNT", "ZREVRANGE",
   "ZCARD", "ZSCORE", "ZRANK", "ZREVRANK", "ZSCAN", "HSET", "HSETNX", "HGET", "HMSET", "HMGET", "HINCRBY", "HINCRBYFLOAT", "HDEL",
   "HLEN", "HKEYS", "HVALS", "HGETALL", "HEXISTS", "HSCAN", "INCRBY", "DECRBY", "INCRBYFLOAT", "GETSET", "MSET", "MSETNX", "RANDOMKEY",
   "SELECT", "MOVE", "RENAME", "RENAMENX", "EXPIRE", "EXPIREAT", "PEXPIRE", "PEXPIREAT", "KEYS", "SCAN", "DBSIZE", "AUTH", "PING",
   "ECHO", "SAVE", "BGSAVE", "BGREWRITEAOF", "SHUTDOWN", "LASTSAVE", "TYPE", "MULTI", "EXEC", "DISCARD", "SYNC", "PSYNC",
   "REPLCONF", "FLUSHDB", "FLUSHALL", "SORT", "INFO", "MONITOR", "TTL", "PTTL", "PERSIST", "SLAVEOF", "ROLE", "DEBUG", "CONFIG", "SUBSCRIBE",
   "UNSUBSCRIBE", "PSUBSCRIBE", "PUNSUBSCRIBE", "PUBLISH", "PUBSUB", "WATCH", "UNWATCH", "RESTORE", "MIGRATE", "DUMP", "OBJECT",
   "CLIENT", "EVAL", "EVALSHA", "SLOWLOG", "SCRIPT", "TIME", "BITOP", "BITCOUNT", "BITPOS", "COMMAND", "PFSELFTEST", "PFADD",
   "PFCOUNT", "PFMERGE", "PFDEBUG", "LATENCY", "SLOTSINFO", "SLOTSDEL", "SLOTSMGRTSLOT", "SLOTSMGRTONE", "SLOTSMGRTTAGSLOT",
   "SLOTSMGRTTAGONE", "SLOTSHASHKEY", "SLOTSCHECK", "SLOTSRESTORE"]

/-- Bytes of a Lean string literal (all opcodes are ASCII). -/
def strBytes (s : String) : List Nat :=
  s.data.map Char.toNat

/-- `blacklist` as byte strings. -/
def blacklistB : List (List Nat) :=
  blacklistOps.map strBytes

/-- `redisfast` as byte strings. -/
def redisfastB : List (List Nat) :=
  redisfastOps.map strBytes

/-- `isNotAllowed` (src/unnamed/part_008, lines 65-67): membership in the
blacklist. -/
def isNotAllowed (opstr : List Nat) : Bool :=
  blacklistB.contains opstr

/-- The `redisfast[string(op)]` lookup: the map stores every key as its own
value, so a hit returns the stored (interned) copy of the key. -/
def redisfastLookup (k : List Nat) : Option (List Nat) :=
  redisfastB.find? (fun s => s == k)

/-- The ASCII upper-casing loop of `getOpStr`: map each byte below 128
through `charmap`; stop with `none` at the first byte `>= 128` (the Go
loop returns to the slow path there). -/
def asciiUpperLoop : List Nat → List Nat → Option (List Nat)
  | acc, [] => some acc.reverse
  | acc, c :: t => if c < 128 then asciiUpperLoop (charmapByte c :: acc) t else none

/-- UTF-8 decoding of a byte list to code points, as done by Go's
`strings.ToUpper` slow path.  Modelled for ASCII and two-byte sequences —
the only shapes reaching the slow path in this development; other leading
bytes decode to U+FFFD as Go does for invalid encodings. -/
def utf8Decode : List Nat → List Nat
  | [] => []
  | b :: [] => if b < 128 then [b] else [65533]
  | b :: c :: t =>
    if b < 128 then b :: utf8Decode (c :: t)
    else if 192 ≤ b ∧ b < 224 then
      (if 128 ≤ c ∧ c < 192 then ((b - 192) * 64 + (c - 128)) :: utf8Decode t
       else 65533 :: utf8Decode (c :: t))
    else 65533 :: utf8Decode (c :: t)

/-- UTF-8 encoding of one code point. -/
def utf8EncodeRune (r : Nat) : List Nat :=
  if r < 128 then [r]
  else if r < 2048 then [192 + r / 64, 128 + r % 64]
  else if r < 65536 then [224 + r / 4096, 128 + (r / 64) % 64, 128 + r % 64]
  else [240 + r / 262144, 128 + (r / 4096) % 64, 128 + (r / 64) % 64, 128 + r % 64]

/-- Go `unicode.ToUpper`, restricted to the ASCII and Latin-1 letter
ranges (the code points exercised here); identity elsewhere. -/
def goToUpperRune (r : Nat) : Nat :=
  if 97 ≤ r ∧ r ≤ 122 then r - 32
  else if 224 ≤ r ∧ r ≤ 254 ∧ r ≠ 247 then r - 32
  else r

/-- Go `strings.ToUpper` on a byte string: decode UTF-8, upper-case each
rune, re-encode. -/
def goStringsToUpper (b : List Nat) : List Nat :=
  ((utf8Decode b).map (fun r => utf8EncodeRune (goToUpperRune r))).flatten

inductive OpErr where
  | badMultiBulk
  | badOpStrLen
deriving DecidableEq, Repr

/-- `getOpStr` (src/unnamed/part_008, lines 74-98): take the first
element's value; reject empty or longer than 64 bytes; upper-case ASCII
through `charmap`, interning via `redisfast` on success; fall back to
`strings.ToUpper` at the first non-ASCII byte. -/
def getOpStr (multi : List Resp) : Except OpErr (List Nat) :=
  match multi with
  | [] => .error .badMultiBulk
  | m :: _ =>
    let op := respValue m
    if op.length = 0 ∨ 64 < op.length then .error .badOpStrLen
    else
      match asciiUpperLoop [] op with
      | none => .ok (goStringsToUpper op)
      | some upper =>
        match redisfastLookup upper with
        | some interned => .ok interned
        | none => .ok upper

/-- `getHashKey` (src/unnamed/part_008, lines 113-123). -/
def getHashKey (multi : List Resp) (opstr : List Nat) : Option (List Nat) :=
  let index :=
    if opstr = strBytes "ZINTERSTORE" ∨ opstr = strBytes "ZUNIONSTORE" ∨
       opstr = strBytes "EVAL" ∨ opstr = strBytes "EVALSHA" then 3 else 1
  match multi.drop index with
  | m :: _ => some (respValue m)
  | [] => none

/-! ## Backend connection (src/unnamed/part_007)

`Request` (src/unnamed/part_005) is modelled with its completion-relevant
fields; the Go `*sync.WaitGroup` pointers `Batch` and `slot` become an
integer counter and an optional counter, the shared `Broken` flag an
optional boolean (`none` for a nil pointer). -/

/-- Backend-side errors attached to responses.  `discarded` is
`ErrDiscardedRequest`; `wire e` stands for any transport/decode error
value `e`. -/
inductive BErr where
  | discarded
  | wire (e : Nat)
deriving DecidableEq, Repr

/-- The completion-relevant state of a `Request`. -/
structure ReqModel where
  opStr : String
  multi : List Resp
  respF : Option Resp
  errF : Option BErr
  broken : Option Bool
  slotW : Option Int
  batch : Int
deriving Repr

/-- `NewRequest(opstr, multi, broken)` (src/unnamed/part_005): fresh
response/batch state, `Batch` pointing at the request's own zero
counter, `slot` nil. -/
def newRequest (opstr : String) (multi : List Resp) (broken : Option Bool) : ReqModel :=
  { opStr := opstr, multi := multi, respF := none, errF := none,
    broken := broken, slotW := none, batch := 0 }

/-- `Request.Break` (src/unnamed/part_005): set the shared flag when the
pointer is non-nil. -/
def reqBreak (r : ReqModel) : ReqModel :=
  { r with broken := r.broken.map (fun _ => true) }

/-- `Request.IsBroken`. -/
def reqIsBroken (r : ReqModel) : Bool :=
  r.broken.getD false

/-- `BackendConn.setResponse` (src/unnamed/part_007, lines 182-192):
store both response fields, `Break` on error, `Done` the slot counter if
present, `Done` the batch counter. -/
def setResponse (r : ReqModel) (resp : Option Resp) (e : Option BErr) : ReqModel :=
  let r1 := { r with respF := resp, errF := e }
  let r2 := if e.isSome then reqBreak r1 else r1
  let r3 := { r2 with slotW := r2.slotW.map (· - 1) }
  { r3 with batch := r3.batch - 1 }

/-- The `Request.Batch.Add(1)` performed by `PushBack` before the send. -/
def pushBackAdd (r : ReqModel) : ReqModel :=
  { r with batch := r.batch + 1 }

/-- `BackendConn.PushBack` (src/unnamed/part_007, lines 56-59): increment
the batch counter and append to the input queue. -/
def bcPushBack (q : List ReqModel) (r : ReqModel) : List ReqModel :=
  q ++ [pushBackAdd r]

/-- The PING request built by `KeepAlive`. -/
def pingRequest : ReqModel :=
  newRequest "PING" [Resp.bulk [80, 73, 78, 71]] none

/-- `BackendConn.KeepAlive` (src/unnamed/part_007, lines 61-71): if the
input channel is non-empty return `false`; otherwise `PushBack` a PING
request and return `true`. -/
def bcKeepAlive (q : List ReqModel) : Bool × List ReqModel :=
  if q.length ≠ 0 then (false, q)
  else (true, bcPushBack q pingRequest)

/-- The three completion shapes that reach `setResponse`: a decoded reply
(`loopReader` success), a wire error (dial/encode/flush/decode failure or
the reader drain), and a discarded broken request (`loopWriter`). -/
inductive BOutcome where
  | normal (resp : Resp)
  | wireFail (e : Nat)
  | discarded
deriving Repr

/-- The `(resp, err)` argument pair each outcome passes to `setResponse`:
`(resp, nil)`, `(nil, err)` and `(nil, ErrDiscardedRequest)`
respectively. -/
def outcomeArgs : BOutcome → Option Resp × Option BErr
  | .normal resp => (some resp, none)
  | .wireFail e => (none, some (.wire e))
  | .discarded => (none, some .discarded)

/-! ## Router (src/unnamed/part_009)

The `Slot` type itself (`slot.forward`, `blockAndWait`, `unblock`,
`reset`) is not among the provided sources; only its callers in
`Router` are.  The slot fields touched by the router are modelled, and
`forward` is modelled from the spec (section 4.4): an unblocked slot
with a backend dispatches onto it; the spec defines no dispatch for a
slot without a backend, modelled as a distinct slot-not-ready error. -/

inductive RouterErr where
  | closedRouter
  | invalidSlotId
  | slotNotReady
deriving DecidableEq, Repr

/-- The router-visible state of one slot. -/
structure SlotModel where
  backendAddr : Option String
  migrateFrom : Option String
  lockHold : Bool
deriving Repr

/-- `slot.reset`: cleared slot. -/
def slotReset : SlotModel :=
  { backendAddr := none, migrateFrom := none, lockHold := false }

/-- Router state: the `closed` flag and the fixed slot array (indexed
function). -/
structure RouterModel where
  closed : Bool
  slots : Nat → SlotModel

/-- `NewWithAuth`: open router, all slots empty. -/
def newRouter : RouterModel :=
  { closed := false, slots := fun _ => slotReset }

/-- Modelled from the spec: `Slot.forward` (slot source file not under
src/).  Dispatch pushes the request onto the slot's backend; a slot
without a backend cannot dispatch and fails with a slot-level error —
which, in particular, is not `ErrClosedRouter`. -/
def slotForward (s : SlotModel) : Except RouterErr Unit :=
  match s.backendAddr with
  | some _ => .ok ()
  | none => .error .slotNotReady

/-- `Router.Close` (src/unnamed/part_009, lines 41-52): if already closed
do nothing; otherwise reset every slot and set `closed`.  (`Close` itself
always returns nil.) -/
def routerClose (s : RouterModel) : RouterModel :=
  if s.closed then s
  else { s with slots := fun _ => slotReset, closed := true }

/-- `Router.FillSlot` (src/unnamed/part_009, lines 75-86): reject a closed
router, validate the index, then refill the slot. -/
def routerFillSlot (s : RouterModel) (idx : Int) (addr from_ : Option String)
    (locked : Bool) : Except RouterErr RouterModel :=
  if s.closed then .error .closedRouter
  else if 0 ≤ idx ∧ idx < 1024 then
    .ok { s with slots := fun j =>
      if j = idx.toNat then
        { backendAddr := addr, migrateFrom := from_, lockHold := locked }
      else s.slots j }
  else .error .invalidSlotId

/-- `Router.KeepAlive` (src/unnamed/part_009, lines 88-98): reject a
closed router, otherwise poll every pool entry. -/
def routerKeepAlive (s : RouterModel) : Except RouterErr Unit :=
  if s.closed then .error .closedRouter else .ok ()

/-- `Router.Dispatch` (src/unnamed/part_009, lines 100-104): hash the key,
pick the slot, delegate to `slot.forward` — with no check of `closed`. -/
def routerDispatch (s : RouterModel) (hkey : List Nat) : Except RouterErr Unit :=
  slotForward (s.slots (hashSlot hkey))

/-! ## Helper lemmas -/

lemma isEmpty_false_of_ne_nil {α : Type} (l : List α) (h : l ≠ []) : l.isEmpty = false := by
  cases l with
  | nil => exact absurd rfl h
  | cons a t => rfl

lemma take_append_self (v w : List Nat) : (v ++ w).take v.length = v := by
  induction v with
  | nil => rfl
  | cons a t ih => simp [ih]

lemma drop_append_self (v w : List Nat) : (v ++ w).drop v.length = w := by
  induction v with
  | nil => rfl
  | cons a t ih => simp [ih]

lemma getD_append_at (v : List Nat) (a : Nat) (w : List Nat) :
    (v ++ a :: w).getD v.length 0 = a := by
  induction v with
  | nil => rfl
  | cons x t ih => simpa using ih

lemma getD_append_at_succ (v : List Nat) (a b : Nat) (w : List Nat) :
    (v ++ a :: b :: w).getD (v.length + 1) 0 = b := by
  induction v with
  | nil => rfl
  | cons x t ih => simpa using ih

lemma take_append_two (v : List Nat) (a b : Nat) (w : List Nat) :
    (v ++ a :: b :: w).take (v.length + 2) = v ++ [a, b] := by
  induction v with
  | nil => rfl
  | cons x t ih => simpa using ih

lemma drop_append_two (v : List Nat) (a b : Nat) (w : List Nat) :
    (v ++ a :: b :: w).drop (v.length + 2) = w := by
  induction v with
  | nil => rfl
  | cons x t ih => simpa using ih

lemma getD_take_lt (l : List Nat) (k m : Nat) (h : k < m) :
    (l.take m).getD k 0 = l.getD k 0 := by
  induction l generalizing k m with
  | nil => simp
  | cons a t ih =>
    cases m with
    | zero => omega
    | succ m =>
      cases k with
      | zero => rfl
      | succ k => simpa using ih k m (by omega)

/-! ## Decimal digit lemmas -/

lemma natDigitsAux_congr (f : Nat) : ∀ (g n : Nat), n < f → n < g →
    natDigitsAux f n = natDigitsAux g n := by
  induction f with
  | zero => intro g n h; omega
  | succ f ih =>
    intro g n hf hg
    cases g with
    | zero => omega
    | succ g =>
      simp only [natDigitsAux]
      by_cases h10 : n < 10
      · simp [h10]
      · have hdiv : n / 10 < n := Nat.div_lt_self (by omega) (by omega)
        simp only [h10, if_false]
        rw [ih g (n / 10) (by omega) (by omega)]

lemma natDigits_rec (n : Nat) :
    natDigits n = if n < 10 then [n + 48] else natDigits (n / 10) ++ [n % 10 + 48] := by
  have e1 : natDigits n = if n < 10 then [n + 48] else natDigitsAux n (n / 10) ++ [n % 10 + 48] := rfl
  by_cases h10 : n < 10
  · rw [e1, if_pos h10, if_pos h10]
  · have hdiv : n / 10 < n := Nat.div_lt_self (by omega) (by omega)
    rw [e1, if_neg h10, if_neg h10]
    have e2 : natDigits (n / 10) = natDigitsAux (n / 10 + 1) (n / 10) := rfl
    rw [e2, natDigitsAux_congr n (n / 10 + 1) (n / 10) hdiv (by omega)]

lemma natDigits_mem_digit (n : Nat) : ∀ d ∈ natDigits n, 48 ≤ d ∧ d ≤ 57 := by
  induction n using Nat.strong_induction_on with
  | _ n ih =>
    intro d hd
    rw [natDigits_rec] at hd
    by_cases h10 : n < 10
    · simp [h10] at hd; omega
    · have hdiv : n / 10 < n := Nat.div_lt_self (by omega) (by omega)
      simp only [h10, if_false, List.mem_append, List.mem_singleton] at hd
      rcases hd with hd | hd
      · exact ih (n / 10) hdiv d hd
      · have : n % 10 < 10 := Nat.mod_lt n (by omega)
        omega

lemma natDigits_ne_nil (n : Nat) : natDigits n ≠ [] := by
  rw [natDigits_rec]
  by_cases h10 : n < 10 <;> simp [h10]

lemma digitsVal_natDigits (n : Nat) : digitsVal (natDigits n) = n := by
  induction n using Nat.strong_induction_on with
  | _ n ih =>
    rw [natDigits_rec]
    by_cases h10 : n < 10
    · simp [h10, digitsVal]
    · have hdiv : n / 10 < n := Nat.div_lt_self (by omega) (by omega)
      simp only [h10, if_false, digitsVal, List.foldl_append, List.foldl_cons, List.foldl_nil]
      have := ih (n / 10) hdiv
      simp only [digitsVal] at this
      rw [this]
      omega

lemma natDigits_all_digits : ∀ n, (natDigits n).all isDigitByte = true := by
  intro n
  rw [List.all_eq_true]
  intro d hd
  have := natDigits_mem_digit n d hd
  simp only [isDigitByte, Bool.and_eq_true, decide_eq_true_eq]
  omega

lemma formatInt_eq_neg (i : Int) (h : i < 0) : formatInt i = 45 :: natDigits i.natAbs := by
  simp [formatInt, h]

lemma formatInt_eq_nonneg (i : Int) (h : 0 ≤ i) : formatInt i = natDigits i.natAbs := by
  simp [formatInt, show ¬ i < 0 by omega]

lemma formatInt_mem (i : Int) : ∀ d ∈ formatInt i, d = 45 ∨ (48 ≤ d ∧ d ≤ 57) := by
  intro d hd
  by_cases h : i < 0
  · rw [formatInt_eq_neg i h] at hd
    rcases List.mem_cons.1 hd with h45 | hd
    · exact Or.inl h45
    · exact Or.inr (natDigits_mem_digit _ d hd)
  · rw [formatInt_eq_nonneg i (by omega)] at hd
    exact Or.inr (natDigits_mem_digit _ d hd)

lemma formatInt_no_lf (i : Int) : ∀ d ∈ formatInt i, d ≠ 10 := by
  intro d hd
  have := formatInt_mem i d hd
  omega

lemma formatInt_ne_nil (i : Int) : formatInt i ≠ [] := by
  by_cases h : i < 0
  · rw [formatInt_eq_neg i h]; simp
  · rw [formatInt_eq_nonneg i (by omega)]; exact natDigits_ne_nil _

lemma signSplit_natDigits (n : Nat) : signSplit (natDigits n) = (false, natDigits n) := by
  rcases hnn : natDigits n with _ | ⟨d, t⟩
  · exact absurd hnn (natDigits_ne_nil n)
  · have hd := natDigits_mem_digit n d (by rw [hnn]; exact List.mem_cons_self d t)
    simp [signSplit, show d ≠ 45 by omega, show d ≠ 43 by omega]

lemma signSplit_formatInt (i : Int) :
    signSplit (formatInt i) = (decide (i < 0), natDigits i.natAbs) := by
  by_cases h : i < 0
  · rw [formatInt_eq_neg i h]; simp [signSplit, h]
  · rw [formatInt_eq_nonneg i (by omega), signSplit_natDigits]; simp [h]

lemma goParseInt_formatInt (i : Int)
    (h1 : -9223372036854775808 ≤ i) (h2 : i < 9223372036854775808) :
    goParseInt (formatInt i) = .ok i := by
  have hne := isEmpty_false_of_ne_nil _ (natDigits_ne_nil i.natAbs)
  by_cases h : i < 0
  · simp only [goParseInt, signSplit_formatInt, decide_eq_true h, hne,
      natDigits_all_digits, digitsVal_natDigits, Bool.false_eq_true, if_false, if_true]
    rw [if_pos (by omega)]
    congr 1
    omega
  · simp only [goParseInt, signSplit_formatInt, decide_eq_false h, hne,
      natDigits_all_digits, digitsVal_natDigits, Bool.false_eq_true, if_false, if_true]
    rw [if_pos (by omega)]
    congr 1
    omega

lemma btoi_formatInt (i : Int)
    (h1 : -9223372036854775808 ≤ i) (h2 : i < 9223372036854775808) :
    btoi (formatInt i) = .ok i := by
  have hne := isEmpty_false_of_ne_nil _ (natDigits_ne_nil i.natAbs)
  by_cases hl : (formatInt i).length ≠ 0 ∧ (formatInt i).length < 10
  · by_cases h : i < 0
    · simp only [btoi, hl, and_self, if_true, signSplit_formatInt, decide_eq_true h,
        hne, natDigits_all_digits, digitsVal_natDigits, and_true, if_true]
      rw [if_pos hl.1]
      congr 1
      omega
    · simp only [btoi, hl, and_self, if_true, signSplit_formatInt, decide_eq_false h,
        hne, natDigits_all_digits, digitsVal_natDigits, and_true, if_true, if_false,
        Bool.false_eq_true]
      rw [if_pos hl.1]
      congr 1
      omega
  · simp only [btoi, hl, if_false]
    exact goParseInt_formatInt i h1 h2

/-! ## `itoa` agreement with `strconv.FormatInt` -/

lemma i64wrap_in_range (x : Int) (h1 : -9223372036854775808 ≤ x)
    (h2 : x < 9223372036854775808) : i64wrap x = x := by
  unfold i64wrap
  omega

lemma i64wrap_overflow (x : Int) (h1 : 9223372036854775808 ≤ x)
    (h2 : x < 27670116110564327424) : i64wrap x = x - 18446744073709551616 := by
  unfold i64wrap
  omega

lemma itoxIndex_table (i : Int) (h1 : -1024 ≤ i) (h2 : i < 131072) :
    itoxIndex i = i + 1024 := by
  unfold itoxIndex
  rw [i64wrap_in_range (i + 1024) (by omega) (by omega)]
  rw [if_pos (by omega), if_pos (by constructor <;> omega)]

lemma itoxIndex_out (i : Int) (h1 : -9223372036854775808 ≤ i)
    (h2 : i < 9223372036854775808) (h3 : i < -1024 ∨ 131072 ≤ i) :
    itoxIndex i = -1 := by
  unfold itoxIndex
  by_cases hov : i + 1024 < 9223372036854775808
  · rw [i64wrap_in_range (i + 1024) (by omega) (by omega)]
    rcases h3 with h3 | h3
    · rw [if_pos (by omega), if_neg (by omega)]
    · rw [if_pos (by omega), if_neg (by omega)]
  · rw [i64wrap_overflow (i + 1024) (by omega) (by omega)]
    rw [if_neg (by omega)]

lemma itoa_eq_formatInt (i : Int) (h1 : -9223372036854775808 ≤ i)
    (h2 : i < 9223372036854775808) : itoa i = formatInt i := by
  by_cases ht : -1024 ≤ i ∧ i < 131072
  · unfold itoa
    rw [itoxIndex_table i ht.1 ht.2, if_pos (by omega)]
    unfold itoamapEntry
    congr 1
    omega
  · unfold itoa
    rw [itoxIndex_out i h1 h2 (by omega), if_neg (by omega)]

lemma itob_eq_formatInt (i : Int) (h1 : -9223372036854775808 ≤ i)
    (h2 : i < 9223372036854775808) : itob i = formatInt i := by
  by_cases ht : -1024 ≤ i ∧ i < 131072
  · unfold itob
    rw [itoxIndex_table i ht.1 ht.2, if_pos (by omega)]
    unfold itobmapEntry itoamapEntry
    congr 1
    omega
  · unfold itob
    rw [itoxIndex_out i h1 h2 (by omega), if_neg (by omega)]

/-! ## Lemmas on `goIndexByte` and the hash tag -/

lemma goIndexByte_not_mem (b : List Nat) (c : Nat) (h : c ∉ b) :
    goIndexByte b c = none := by
  induction b with
  | nil => rfl
  | cons x t ih =>
    have hx : x ≠ c := by intro e; exact h (by rw [e]; exact List.mem_cons_self c t)
    simp only [goIndexByte, hx, if_false]
    rw [ih (fun hm => h (List.mem_cons_of_mem x hm))]
    rfl

lemma goIndexByte_append_self (k : List Nat) (c : Nat) (rest : List Nat) (h : c ∉ k) :
    goIndexByte (k ++ c :: rest) c = some k.length := by
  induction k with
  | nil => simp [goIndexByte]
  | cons x t ih =>
    have hx : x ≠ c := by intro e; exact h (by rw [e]; exact List.mem_cons_self c t)
    have ht := ih (fun hm => h (List.mem_cons_of_mem x hm))
    simp [goIndexByte, hx, ht]

lemma hashTagBytes_no_close (k : List Nat) (h : (125 : Nat) ∉ k) :
    hashTagBytes k = k := by
  unfold hashTagBytes
  cases hb : goIndexByte k 123 with
  | none => rfl
  | some beg =>
    have hnone := goIndexByte_not_mem (k.drop (beg + 1)) 125
      (fun hm => h (List.drop_subset (beg + 1) k hm))
    simp only [hnone]

lemma hashTagBytes_wrapped (k extra : List Nat) (h : (125 : Nat) ∉ k) :
    hashTagBytes (123 :: (k ++ 125 :: extra)) = k := by
  unfold hashTagBytes
  have h0 : goIndexByte (123 :: (k ++ 125 :: extra)) 123 = some 0 := by
    simp [goIndexByte]
  have h1 : goIndexByte (k ++ 125 :: extra) 125 = some k.length :=
    goIndexByte_append_self k 125 extra h
  simp only [h0, List.drop_succ_cons, List.drop_zero, h1]
  exact take_append_self k (125 :: extra)

/-! ## Claim C4 — hash slots and hash tags -/

/-- C4 (counterexample): the claim's hashed-byte selection requires the
closing brace at position > 1 after the `{`; on the key `"{}a"` the code
hashes the empty tag (slot 0) while the claim predicts the hash of the
whole key, and the two disagree. -/
theorem C4_counterexample :
    ¬ (hashSlot [123, 125, 97] = crc32 (claimHashedBytes [123, 125, 97]) % 1024) := by
  decide

/-- C4 (amended): `hashSlot(k)` is CRC32-IEEE modulo 1024 of the bytes
strictly between the first `{` and the first following `}` whenever such
a `}` exists (at any position, the empty tag included), of the whole key
otherwise; and `hashSlot(k) = hashSlot("{" ++ k ++ "}extra")` whenever
the first brace pair brackets `k` (i.e. `k` contains no `}`). -/
theorem C4_theorem :
    (∀ key, hashSlot key = crc32 (amendedHashedBytes key) % 1024) ∧
    (∀ k extra : List Nat, (125 : Nat) ∉ k →
      hashSlot k = hashSlot (123 :: (k ++ 125 :: extra))) := by
  constructor
  · intro key
    rfl
  · intro k extra h
    unfold hashSlot
    rw [hashTagBytes_no_close k h, hashTagBytes_wrapped k extra h]

/-- C4 (witness): the amended tag equation evaluated on the key `"f"`
wrapped as `"{f}e"`. -/
theorem C4_witness : hashSlot [102] = hashSlot (123 :: ([102] ++ 125 :: [101])) :=
  C4_theorem.2 [102] [101] (by decide)

/-! ## Claim C8 — integer serialization -/

/-- C8: for every `int64` value, `itoa` and `itob` produce exactly the
decimal representation `strconv.FormatInt(i, 10)`, and the precomputed
table path is taken exactly when `i` lies in `[-1024, 131072)`. -/
theorem C8_theorem (i : Int)
    (h1 : -9223372036854775808 ≤ i) (h2 : i < 9223372036854775808) :
    itoa i = formatInt i ∧ itob i = formatInt i ∧
    (0 ≤ itoxIndex i ↔ (-1024 ≤ i ∧ i < 131072)) := by
  refine ⟨itoa_eq_formatInt i h1 h2, itob_eq_formatInt i h1 h2, ?_, ?_⟩
  · intro hx
    by_contra hn
    rw [itoxIndex_out i h1 h2 (by omega)] at hx
    omega
  · intro hr
    rw [itoxIndex_table i hr.1 hr.2]
    omega

/-- C8 (witness): the boundary value 131071 (last table entry). -/
theorem C8_witness :
    itoa 131071 = formatInt 131071 ∧ itob 131071 = formatInt 131071 ∧
    (0 ≤ itoxIndex 131071 ↔ (-1024 ≤ (131071 : Int) ∧ (131071 : Int) < 131072)) :=
  C8_theorem 131071 (by decide) (by decide)

/-! ## Claim C6 — blacklist vs allowed table -/

/-- C6 (counterexample): `"KEYS"` is both blacklisted and present in the
allowed (interned) opcode table, so the two seeded tables are not
disjoint. -/
theorem C6_counterexample :
    isNotAllowed (strBytes "KEYS") = true ∧ redisfastB.contains (strBytes "KEYS") = true :=
  ⟨rfl, rfl⟩

/-- C6 (amended): far from being disjoint, the blacklist is entirely
contained in the allowed table: every blacklisted opcode also appears in
`redisfast`. -/
theorem C6_theorem : ∀ op ∈ blacklistB, redisfastB.contains op = true := by
  decide

/-- C6 (witness): the containment applied to `"MULTI"`. -/
theorem C6_witness : redisfastB.contains (strBytes "MULTI") = true :=
  C6_theorem (strBytes "MULTI") (by decide)

/-! ## Claim C9 — `BackendConn.KeepAlive` -/

/-- C9: `KeepAlive` returns `true` iff the input queue is empty at the
call; on a non-empty queue it changes nothing and returns `false`; on an
empty queue it enqueues exactly one PING request. -/
theorem C9_theorem (q : List ReqModel) :
    ((bcKeepAlive q).1 = true ↔ q = []) ∧
    (q ≠ [] → bcKeepAlive q = (false, q)) ∧
    (q = [] → bcKeepAlive q = (true, bcPushBack [] pingRequest)) := by
  cases q with
  | nil => exact ⟨by simp [bcKeepAlive], fun h => absurd rfl h, fun _ => rfl⟩
  | cons a t => exact ⟨by simp [bcKeepAlive], fun _ => rfl, fun h => absurd h (by simp)⟩

/-- C9 (witness): a non-empty queue is left untouched with result
`false`; an empty queue gains the PING. -/
theorem C9_witness :
    bcKeepAlive [pingRequest] = (false, [pingRequest]) ∧
    bcKeepAlive [] = (true, bcPushBack [] pingRequest) :=
  ⟨(C9_theorem [pingRequest]).2.1 (by simp), (C9_theorem []).2.2 rfl⟩

/-! ## Claim C5 — request completion -/

/-- C5: for each of the three completion outcomes a backend connection
can deliver (normal reply, wire error, discard), `setResponse` sets
exactly one of the two response fields, decrements the batch counter
exactly once (so `PushBack` + completion is net zero per dispatch
target), decrements the slot in-flight counter when present, and marks
the request broken on a wire error or discard whenever the shared flag
exists. -/
theorem C5_theorem (o : BOutcome) (r : ReqModel) :
    ((setResponse r (outcomeArgs o).1 (outcomeArgs o).2).respF.isSome ≠
      (setResponse r (outcomeArgs o).1 (outcomeArgs o).2).errF.isSome) ∧
    (setResponse r (outcomeArgs o).1 (outcomeArgs o).2).batch = r.batch - 1 ∧
    (setResponse (pushBackAdd r) (outcomeArgs o).1 (outcomeArgs o).2).batch = r.batch ∧
    (∀ w, r.slotW = some w →
      (setResponse r (outcomeArgs o).1 (outcomeArgs o).2).slotW = some (w - 1)) ∧
    (∀ e, (outcomeArgs o).2 = some e → ∀ b, r.broken = some b →
      (setResponse r (outcomeArgs o).1 (outcomeArgs o).2).broken = some true) := by
  cases o with
  | normal resp =>
    refine ⟨by simp [setResponse, outcomeArgs], by simp [setResponse, outcomeArgs],
      by simp [setResponse, outcomeArgs, pushBackAdd], fun w hw => ?_, fun e he => ?_⟩
    · simp [setResponse, outcomeArgs, hw]
    · simp [outcomeArgs] at he
  | wireFail e0 =>
    refine ⟨by simp [setResponse, outcomeArgs, reqBreak], by simp [setResponse, outcomeArgs, reqBreak],
      by simp [setResponse, outcomeArgs, pushBackAdd, reqBreak], fun w hw => ?_, fun e he b hb => ?_⟩
    · simp [setResponse, outcomeArgs, reqBreak, hw]
    · simp [setResponse, outcomeArgs, reqBreak, hb]
  | discarded =>
    refine ⟨by simp [setResponse, outcomeArgs, reqBreak], by simp [setResponse, outcomeArgs, reqBreak],
      by simp [setResponse, outcomeArgs, pushBackAdd, reqBreak], fun w hw => ?_, fun e he b hb => ?_⟩
    · simp [setResponse, outcomeArgs, reqBreak, hw]
    · simp [setResponse, outcomeArgs, reqBreak, hb]

/-- A concrete in-flight request for the C5 witness: slot counter at 3,
shared broken flag present and unset. -/
def c5req : ReqModel :=
  { newRequest "GET" [Resp.bulk [107]] (some false) with slotW := some 3, batch := 1 }

/-- C5 (witness): a discarded completion on a concrete request decrements
the slot counter and sets the broken flag. -/
theorem C5_witness :
    (setResponse c5req (outcomeArgs BOutcome.discarded).1 (outcomeArgs BOutcome.discarded).2).slotW =
      some (3 - 1) ∧
    (setResponse c5req (outcomeArgs BOutcome.discarded).1 (outcomeArgs BOutcome.discarded).2).broken =
      some true :=
  ⟨(C5_theorem BOutcome.discarded c5req).2.2.2.1 3 rfl,
   (C5_theorem BOutcome.discarded c5req).2.2.2.2 BErr.discarded rfl false rfl⟩

/-! ## Claim C1 — operations on a closed router -/

/-- C1 (counterexample): after `Close`, `Dispatch` does not return
`ErrClosedRouter` — `Router.Dispatch` never consults the `closed` flag
and forwards to the (reset) slot, which fails with the slot-level
not-ready error instead. -/
theorem C1_counterexample :
    routerDispatch (routerClose newRouter) [102, 111, 111] = .error .slotNotReady ∧
    routerDispatch (routerClose newRouter) [102, 111, 111] ≠ .error .closedRouter := by
  refine ⟨rfl, ?_⟩
  intro h
  have he : routerDispatch (routerClose newRouter) [102, 111, 111] =
      Except.error RouterErr.slotNotReady := rfl
  rw [he] at h
  simp at h

/-- C1 (amended): after `Close()` returns on an open router, `FillSlot`
and `KeepAlive` fail with `ErrClosedRouter`, while `Dispatch` bypasses
the closed check and fails with the slot-level not-ready error on every
key. -/
theorem C1_theorem (s : RouterModel) (hopen : s.closed = false) :
    (∀ idx addr from_ locked,
      routerFillSlot (routerClose s) idx addr from_ locked = .error .closedRouter) ∧
    routerKeepAlive (routerClose s) = .error .closedRouter ∧
    (∀ hkey, routerDispatch (routerClose s) hkey = .error .slotNotReady) := by
  have hc : routerClose s =
      { s with slots := fun _ => slotReset, closed := true } := by
    unfold routerClose
    rw [if_neg (by rw [hopen]; exact Bool.false_ne_true)]
  refine ⟨fun idx addr from_ locked => ?_, ?_, fun hkey => ?_⟩
  · rw [hc]
    unfold routerFillSlot
    rw [if_pos rfl]
  · rw [hc]
    unfold routerKeepAlive
    rw [if_pos rfl]
  · rw [hc]
    unfold routerDispatch slotForward
    rfl

/-- C1 (witness): the amended behaviour on a freshly created router. -/
theorem C1_witness :
    routerKeepAlive (routerClose newRouter) = .error .closedRouter ∧
    routerFillSlot (routerClose newRouter) 7 (some "x:1") none false = .error .closedRouter :=
  ⟨(C1_theorem newRouter rfl).2.1, (C1_theorem newRouter rfl).1 7 (some "x:1") none false⟩

/-! ## Claim C7 — `getOpStr` -/

/-- C7 (counterexample): on `["Gét", "x"]` the slow path returns Go's
`strings.ToUpper`, which upper-cases `é` to `É`; the result is not the
claimed `"GéT"` (non-ASCII byte unchanged). -/
theorem C7_counterexample :
    getOpStr [Resp.bulk [71, 195, 169, 116], Resp.bulk [120]] ≠ .ok [71, 195, 169, 84] := by
  intro h
  have he : getOpStr [Resp.bulk [71, 195, 169, 116], Resp.bulk [120]] =
      Except.ok [71, 195, 137, 84] := rfl
  rw [he] at h
  simp at h

/-- C7 (amended): `getOpStr` rejects an empty or over-64-byte first
element with the bad-opcode-length error; all-ASCII opcodes are
upper-cased through the 128-entry map (`"get"` becomes `"GET"`); a
non-ASCII byte diverts to the slow Unicode path, which fully upper-cases
(`"Gét"` becomes `"GÉT"`, bytes `[71, 195, 137, 84]`). -/
theorem C7_theorem :
    (∀ (m : Resp) (t : List Resp),
      (respValue m).length = 0 ∨ 64 < (respValue m).length →
      getOpStr (m :: t) = .error .badOpStrLen) ∧
    getOpStr [Resp.bulk [103, 101, 116], Resp.bulk [120]] = .ok [71, 69, 84] ∧
    getOpStr [Resp.bulk [71, 195, 169, 116], Resp.bulk [120]] = .ok [71, 195, 137, 84] := by
  refine ⟨fun m t h => ?_, rfl, rfl⟩
  simp only [getOpStr]
  rw [if_pos h]

/-- C7 (witness): the rejection applied to an empty opcode. -/
theorem C7_witness : getOpStr [Resp.bulk []] = .error .badOpStrLen :=
  C7_theorem.1 (Resp.bulk []) [] (Or.inl rfl)

/-! ## Claim C2 — counterexample part -/

/-- C2 (counterexample): the value `SimpleString "\n"` satisfies the
claim's well-formedness (type among the five, sizes fine), but its
encoding `"+\n\r\n"` does not decode back: the decoder stops at the first
LF and fails the CRLF check. -/
theorem C2_counterexample :
    claimWFResp (Resp.str [10]) = true ∧
    decodeResp 10 (encodeResp (Resp.str [10]) ++ []) ≠ .ok (Resp.str [10], []) := by
  refine ⟨rfl, ?_⟩
  intro h
  have he : decodeResp 10 (encodeResp (Resp.str [10]) ++ []) =
      Except.error RErr.badCRLFEnd := rfl
  rw [he] at h
  simp at h

/-! ## Decoder lemmas for encoded inputs -/

lemma readLine_append (v rest : List Nat) (hv : ∀ d ∈ v, d ≠ 10) :
    readLine (v ++ 13 :: 10 :: rest) = some (v ++ [13, 10], rest) := by
  induction v with
  | nil => simp [readLine]
  | cons d t ih =>
    have hd : d ≠ 10 := hv d (List.mem_cons_self d t)
    have ih2 := ih (fun x hx => hv x (List.mem_cons_of_mem d hx))
    simp [readLine, hd, ih2]

lemma decodeTextBytes_encode (v rest : List Nat) (hv : ∀ d ∈ v, d ≠ 10) :
    decodeTextBytes (v ++ 13 :: 10 :: rest) = .ok (v, rest) := by
  unfold decodeTextBytes
  simp only [readLine_append v rest hv]
  have hlen : (v ++ [13, 10]).length = v.length + 2 := by simp
  simp only [hlen, show v.length + 2 - 2 = v.length from by omega,
    getD_append_at v 13 [10], take_append_self v [13, 10]]
  rw [if_neg (by omega), if_neg (by simp)]

lemma decodeInt_encode (n : Int) (rest : List Nat)
    (h1 : -9223372036854775808 ≤ n) (h2 : n < 9223372036854775808) :
    decodeInt (formatInt n ++ 13 :: 10 :: rest) = .ok (n, rest) := by
  unfold decodeInt
  simp only [decodeTextBytes_encode (formatInt n) rest (formatInt_no_lf n),
    btoi_formatInt n h1 h2]

/-! ## Claim C3 — bulk-bytes length handling -/

/-- C3: once the bulk-bytes header decodes to length `n`, the decoder
rejects `n < -1` with the bad-length error and `n > 536870912` with the
too-long error (so `MaxBulkBytesLen` itself is accepted and
`MaxBulkBytesLen + 1` rejected), returns the null value for `n = -1`, and
otherwise consumes exactly `n + 2` further bytes, succeeding with the
payload iff the final two bytes are CR LF (an LF alone fails the CRLF
check), and failing with an EOF error when fewer than `n + 2` bytes
remain. -/
theorem C3_theorem (s : List Nat) (n : Int) (rest : List Nat)
    (h : decodeInt s = .ok (n, rest)) :
    (n < -1 → decodeBulkBytes s = .error .badBytesLen) ∧
    (536870912 < n → decodeBulkBytes s = .error .badBytesLenTooLong) ∧
    (n = -1 → decodeBulkBytes s = .ok (none, rest)) ∧
    (0 ≤ n → n ≤ 536870912 → rest.length < n.toNat + 2 →
      decodeBulkBytes s = .error .eofErr) ∧
    (0 ≤ n → n ≤ 536870912 → n.toNat + 2 ≤ rest.length →
      decodeBulkBytes s =
        if rest.getD n.toNat 0 = 13 ∧ rest.getD (n.toNat + 1) 0 = 10 then
          .ok (some (rest.take n.toNat), rest.drop (n.toNat + 2))
        else .error .badCRLFEnd) := by
  simp only [decodeBulkBytes, h]
  refine ⟨fun hlt => ?_, fun hgt => ?_, fun heq => ?_,
    fun h0 hle hlen => ?_, fun h0 hle hlen => ?_⟩
  · rw [if_pos hlt]
  · rw [if_neg (by omega), if_pos hgt]
  · rw [if_neg (by omega), if_neg (by omega), if_pos heq]
  · rw [if_neg (by omega), if_neg (by omega), if_neg (by omega), if_pos hlen]
  · rw [if_neg (by omega), if_neg (by omega), if_neg (by omega), if_neg (by omega)]
    rw [getD_take_lt rest n.toNat (n.toNat + 2) (by omega),
      getD_take_lt rest (n.toNat + 1) (n.toNat + 2) (by omega),
      List.take_take, min_eq_left (by omega)]
    by_cases hc : rest.getD n.toNat 0 = 13 ∧ rest.getD (n.toNat + 1) 0 = 10
    · rw [if_neg (by omega), if_pos hc]
    · rw [if_pos (by omega), if_neg hc]

/-- C3 (witness): the null header `"-1\r\n"`. -/
theorem C3_witness : decodeBulkBytes [45, 49, 13, 10] = .ok (none, []) :=
  (C3_theorem [45, 49, 13, 10] (-1) [] rfl).2.2.1 rfl

/-! ## Claim C10 — `DecodeMultiBulk` rejects `n <= 0` -/

/-- C10: on the array marker `*`, `decodeMultiBulk` fails with the
bad-array-length error for every declared length `n ≤ 0` — including
`n = 0` and the null array `n = -1` — while plain `decodeResp` accepts
`*0` as the empty array and `*-1` as the null array. -/
theorem C10_theorem :
    (∀ n : Int, -9223372036854775808 ≤ n → n ≤ 0 → ∀ (rest : List Nat) (fuel : Nat),
      decodeMultiBulk fuel (42 :: (formatInt n ++ 13 :: 10 :: rest)) = .error .badArrayLen) ∧
    (∀ (rest : List Nat) (fuel : Nat),
      decodeResp (fuel + 1) (42 :: (formatInt 0 ++ 13 :: 10 :: rest)) = .ok (.arr [], rest)) ∧
    (∀ (rest : List Nat) (fuel : Nat),
      decodeResp (fuel + 1) (42 :: (formatInt (-1) ++ 13 :: 10 :: rest)) = .ok (.arrNull, rest)) := by
  refine ⟨fun n h1 h2 rest fuel => ?_, fun rest fuel => ?_, fun rest fuel => ?_⟩
  · simp only [decodeMultiBulk, decodeInt_encode n rest h1 (by omega)]
    rw [if_neg (by omega), if_pos h2]
  · simp only [decodeResp, decodeInt_encode 0 rest (by omega) (by omega)]
    norm_num
    simp [decodeElemsAux]
  · simp only [decodeResp, decodeInt_encode (-1) rest (by omega) (by omega)]
    norm_num

/-- C10 (witness): the empty multi-bulk `"*0\r\n"` is rejected while the
same bytes decode as an empty array. -/
theorem C10_witness :
    decodeMultiBulk 5 (42 :: (formatInt 0 ++ 13 :: 10 :: [])) = .error .badArrayLen ∧
    decodeResp (4 + 1) (42 :: (formatInt 0 ++ 13 :: 10 :: [])) = .ok (.arr [], []) :=
  ⟨C10_theorem.1 0 (by decide) (by decide) [] 5, C10_theorem.2.1 [] 4⟩

/-! ## Claim C2 — the round-trip law

Unfolding equations for the mutually recursive encoder and
well-formedness predicates, stated once by `rfl` so that later proofs
rewrite with them instead of unfolding the mutual definitions. -/

lemma encodeResp_str (v : List Nat) : encodeResp (.str v) = 43 :: encodeTextBytes v := rfl

lemma encodeResp_err (v : List Nat) : encodeResp (.err v) = 45 :: encodeTextBytes v := rfl

lemma encodeResp_int (v : List Nat) : encodeResp (.int v) = 58 :: encodeTextBytes v := rfl

lemma encodeResp_bulkNull : encodeResp .bulkNull = 36 :: encodeIntBytes (-1) := rfl

lemma encodeResp_bulk (v : List Nat) :
    encodeResp (.bulk v) = 36 :: (encodeIntBytes (v.length : Int) ++ encodeTextBytes v) := rfl

lemma encodeResp_arrNull : encodeResp .arrNull = 42 :: encodeIntBytes (-1) := rfl

lemma encodeResp_arr (l : List Resp) :
    encodeResp (.arr l) = 42 :: (encodeIntBytes (l.length : Int) ++ encodeRespList l) := rfl

lemma encodeRespList_nil : encodeRespList [] = [] := rfl

lemma encodeRespList_cons (r : Resp) (t : List Resp) :
    encodeRespList (r :: t) = encodeResp r ++ encodeRespList t := rfl

lemma wfResp_str (v : List Nat) : wfResp (.str v) = v.all (· ≠ 10) := rfl

lemma wfResp_err (v : List Nat) : wfResp (.err v) = v.all (· ≠ 10) := rfl

lemma wfResp_int (v : List Nat) : wfResp (.int v) = v.all (· ≠ 10) := rfl

lemma wfResp_bulk (v : List Nat) : wfResp (.bulk v) = (v.length ≤ 536870912 : Bool) := rfl

lemma wfResp_arr (l : List Resp) :
    wfResp (.arr l) = ((l.length ≤ 1048576 : Bool) && wfRespList l) := rfl

lemma wfRespList_cons (r : Resp) (t : List Resp) :
    wfRespList (r :: t) = (wfResp r && wfRespList t) := rfl

lemma encodeIntBytes_eq (v : Int) : encodeIntBytes v = itoa v ++ [13, 10] := rfl

lemma encodeTextBytes_eq (v : List Nat) : encodeTextBytes v = v ++ [13, 10] := rfl

lemma encodeResp_length_pos (r : Resp) : 1 ≤ (encodeResp r).length := by
  cases r with
  | str v => rw [encodeResp_str, List.length_cons]; exact Nat.le_add_left 1 _
  | err v => rw [encodeResp_err, List.length_cons]; exact Nat.le_add_left 1 _
  | int v => rw [encodeResp_int, List.length_cons]; exact Nat.le_add_left 1 _
  | bulkNull => rw [encodeResp_bulkNull, List.length_cons]; exact Nat.le_add_left 1 _
  | bulk v => rw [encodeResp_bulk, List.length_cons]; exact Nat.le_add_left 1 _
  | arrNull => rw [encodeResp_arrNull, List.length_cons]; exact Nat.le_add_left 1 _
  | arr l => rw [encodeResp_arr, List.length_cons]; exact Nat.le_add_left 1 _

lemma encodeRespList_mem_le (l : List Resp) (r : Resp) (h : r ∈ l) :
    (encodeResp r).length ≤ (encodeRespList l).length := by
  induction l with
  | nil => cases h
  | cons a t ih =>
    rcases List.mem_cons.1 h with he | ht
    · rw [he, encodeRespList_cons, List.length_append]
      exact Nat.le_add_right _ _
    · have := ih ht
      rw [encodeRespList_cons, List.length_append]
      omega

lemma all_ne_lf (v : List Nat) (h : v.all (· ≠ 10) = true) : ∀ d ∈ v, d ≠ 10 := by
  intro d hd
  have := List.all_eq_true.mp h d hd
  simpa using this

/-! The per-constructor shapes of an encoded stream followed by trailing
bytes, with `itoa` already rewritten to `formatInt`. -/

lemma stream_text (c : Nat) (v rest : List Nat) :
    (c :: encodeTextBytes v) ++ rest = c :: (v ++ 13 :: 10 :: rest) := by
  rw [encodeTextBytes_eq]
  simp only [List.cons_append, List.append_assoc, List.nil_append]

lemma stream_intHeader (rest : List Nat) (c : Nat) (n : Int)
    (h1 : -9223372036854775808 ≤ n) (h2 : n < 9223372036854775808) :
    (c :: encodeIntBytes n) ++ rest = c :: (formatInt n ++ 13 :: 10 :: rest) := by
  rw [encodeIntBytes_eq, itoa_eq_formatInt n h1 h2]
  simp only [List.cons_append, List.append_assoc, List.nil_append]

lemma stream_bulk (v rest : List Nat) (h : v.length ≤ 536870912) :
    encodeResp (.bulk v) ++ rest =
      36 :: (formatInt (v.length : Int) ++ 13 :: 10 :: (v ++ 13 :: 10 :: rest)) := by
  rw [encodeResp_bulk, encodeIntBytes_eq,
    itoa_eq_formatInt (v.length : Int) (by omega) (by omega), encodeTextBytes_eq]
  simp only [List.cons_append, List.append_assoc, List.nil_append]

lemma stream_arr (l : List Resp) (rest : List Nat) (h : l.length ≤ 1048576) :
    encodeResp (.arr l) ++ rest =
      42 :: (formatInt (l.length : Int) ++ 13 :: 10 :: (encodeRespList l ++ rest)) := by
  rw [encodeResp_arr, encodeIntBytes_eq,
    itoa_eq_formatInt (l.length : Int) (by omega) (by omega)]
  simp only [List.cons_append, List.append_assoc, List.nil_append]

lemma decodeElemsAux_encode (f : Nat)
    (ih : ∀ (r : Resp) (rest : List Nat), wfResp r = true → (encodeResp r).length ≤ f →
      decodeResp f (encodeResp r ++ rest) = .ok (r, rest)) :
    ∀ (l : List Resp) (rest : List Nat), wfRespList l = true →
      (∀ r ∈ l, (encodeResp r).length ≤ f) →
      decodeElemsAux (decodeResp f) l.length (encodeRespList l ++ rest) = .ok (l, rest) := by
  intro l
  induction l with
  | nil =>
    intro rest _ _
    rfl
  | cons a t iht =>
    intro rest hwf hlen
    rw [wfRespList_cons, Bool.and_eq_true] at hwf
    have hstream : encodeRespList (a :: t) ++ rest =
        encodeResp a ++ (encodeRespList t ++ rest) := by
      rw [encodeRespList_cons, List.append_assoc]
    have ha := ih a (encodeRespList t ++ rest) hwf.1 (hlen a (List.mem_cons_self a t))
    have ht := iht rest hwf.2
      (fun r hr => hlen r (List.mem_cons_of_mem a hr))
    rw [show (a :: t).length = t.length + 1 from rfl, hstream]
    simp only [decodeElemsAux, ha, ht]


/-- C2 (amended): for every well-formed `Resp` — sizes within the limits
and no LF byte inside simple-string/error/integer payloads — decoding the
encoding returns the value and leaves any trailing bytes untouched, for
any fuel at least the encoding length; the null bulk-bytes and null array
cases included. -/
theorem C2_theorem : ∀ (fuel : Nat) (r : Resp) (rest : List Nat),
    wfResp r = true → (encodeResp r).length ≤ fuel →
    decodeResp fuel (encodeResp r ++ rest) = .ok (r, rest) := by
  intro fuel
  induction fuel with
  | zero =>
    intro r rest _ hlen
    have := encodeResp_length_pos r
    omega
  | succ f ih =>
    intro r rest hwf hlen
    cases r with
    | str v =>
      rw [wfResp_str] at hwf
      have hv := all_ne_lf v hwf
      rw [encodeResp_str, stream_text 43 v rest]
      simp only [decodeResp]
      norm_num [decodeTextBytes_encode v rest hv]
    | err v =>
      rw [wfResp_err] at hwf
      have hv := all_ne_lf v hwf
      rw [encodeResp_err, stream_text 45 v rest]
      simp only [decodeResp]
      norm_num [decodeTextBytes_encode v rest hv]
    | int v =>
      rw [wfResp_int] at hwf
      have hv := all_ne_lf v hwf
      rw [encodeResp_int, stream_text 58 v rest]
      simp only [decodeResp]
      norm_num [decodeTextBytes_encode v rest hv]
    | bulkNull =>
      rw [encodeResp_bulkNull, stream_intHeader rest 36 (-1) (by decide) (by decide)]
      simp only [decodeResp]
      norm_num [decodeBulkBytes, decodeInt_encode (-1) rest (by decide) (by decide)]
    | bulk v =>
      rw [wfResp_bulk] at hwf
      have hb : v.length ≤ 536870912 := by simpa using hwf
      rw [stream_bulk v rest hb]
      simp only [decodeResp]
      norm_num
      simp only [decodeBulkBytes,
        decodeInt_encode (v.length : Int) (v ++ 13 :: 10 :: rest) (by omega) (by omega)]
      rw [if_neg (by omega), if_neg (by omega), if_neg (by omega)]
      rw [show ((v.length : Int)).toNat = v.length from by omega]
      have hlen1 : (v ++ 13 :: 10 :: rest).length = v.length + rest.length + 2 := by
        rw [List.length_append, List.length_cons, List.length_cons]
        omega
      rw [if_neg (by rw [hlen1]; omega)]
      rw [take_append_two v 13 10 rest]
      have hcond : ¬ ((v ++ [13, 10]).getD v.length 0 ≠ 13 ∨
          (v ++ [13, 10]).getD (v.length + 1) 0 ≠ 10) := by
        have h2 : (v ++ [13, 10]).getD (v.length + 1) 0 = 10 := by
          have h3 := getD_append_at_succ v 13 10 []
          simpa using h3
        rw [getD_append_at v 13 [10], h2]
        simp
      rw [if_neg hcond, take_append_self v [13, 10], drop_append_two v 13 10 rest]
    | arrNull =>
      rw [encodeResp_arrNull, stream_intHeader rest 42 (-1) (by decide) (by decide)]
      simp only [decodeResp]
      norm_num [decodeInt_encode (-1) rest (by decide) (by decide)]
    | arr l =>
      rw [wfResp_arr, Bool.and_eq_true] at hwf
      have hcnt : l.length ≤ 1048576 := by simpa using hwf.1
      have hmem : ∀ r ∈ l, (encodeResp r).length ≤ f := by
        intro r hr
        have h1 := encodeRespList_mem_le l r hr
        rw [encodeResp_arr, List.length_cons, List.length_append] at hlen
        omega
      rw [stream_arr l rest hcnt]
      simp only [decodeResp]
      norm_num
      simp only [decodeInt_encode (l.length : Int) (encodeRespList l ++ rest)
        (by omega) (by omega)]
      rw [if_neg (by omega), if_neg (by omega), if_neg (by omega)]
      rw [show ((l.length : Int)).toNat = l.length from by omega]
      simp only [decodeElemsAux_encode f ih l rest hwf.2 hmem]


/-- C2 (witness): a nested concrete value (array of a bulk, a null bulk,
an empty array and an integer) round-trips with trailing bytes. -/
theorem C2_witness :
    decodeResp 40
      (encodeResp (Resp.arr [Resp.bulk [97, 98], Resp.bulkNull, Resp.arr [], Resp.int [49]]) ++ [99]) =
    .ok (Resp.arr [Resp.bulk [97, 98], Resp.bulkNull, Resp.arr [], Resp.int [49]], [99]) :=
  C2_theorem 40 (Resp.arr [Resp.bulk [97, 98], Resp.bulkNull, Resp.arr [], Resp.int [49]]) [99]
    (by rfl) (by decide)
